import Mathlib

/-!
Shallow embedding of the EdTech platform backend (`main.py` over the document
schemas of `schemas.py`), together with theorems settling the behavioural
claims about quiz grading, the lesson-unlock progression, enrollment, the
coin/points wallet and error handling.

Modelling conventions:
* Document identifiers are opaque strings (as at the API boundary).
* MongoDB collections are Lean lists; `find_one` is `List.find?` (first match
  in natural order), `update_one` with `upsert=True` is `upsertWith` below
  (update the first matching document, else append a fresh one).
* A stored `lessonprogress` document is modelled field-by-field with `Option`
  fields, because `$set`-upserts create documents that carry only the fields
  mentioned in the filter and the `$set` clause.
* Python's `//` on ints is floor division, embedded as `Int.fdiv`; Python's
  `int(...)` applied to a quotient truncates toward zero, embedded as
  `Int.tdiv` of the exact (rational) quotient.
* Handlers that can raise `HTTPException` return `Except HTTPError`.
-/

/-- An `HTTPException` raised by a handler: status code plus detail string. -/
structure HTTPError where
  status : Nat
  detail : String
  deriving DecidableEq, Repr

/-- `schemas.Question`: one quiz question. -/
structure Question where
  prompt : String
  options : List String
  correct_index : Int
  points : Int := 1
  deriving DecidableEq, Repr

/-- `schemas.Quiz`: the quiz attached to a lesson. -/
structure Quiz where
  lesson_id : String
  questions : List Question
  pass_percentage : Int := 60
  deriving DecidableEq, Repr

/-- `schemas.Lesson`, with its generated document id. -/
structure Lesson where
  id : String
  course_id : String
  title : String
  video_url : Option String := none
  order : Int := 0
  is_free_preview : Bool := false
  deriving DecidableEq, Repr

/-- `schemas.Enrollment`. -/
structure Enrollment where
  user_id : String
  course_id : String
  status : String := "active"
  deriving DecidableEq, Repr

/-- A stored `lessonprogress` document.  All non-key fields are `Option`s:
a `$set`-upsert in `submit_quiz` creates a document holding only
`user_id`, `lesson_id`, `is_completed`, `quiz_score` and `quiz_total`,
so `course_id` and `is_unlocked` can be genuinely absent. -/
structure ProgressDoc where
  user_id : String
  lesson_id : String
  course_id : Option String := none
  is_unlocked : Option Bool := none
  is_completed : Option Bool := none
  quiz_score : Option Int := none
  quiz_total : Option Int := none
  deriving DecidableEq, Repr

/-- `schemas.Transaction`. -/
structure Transaction where
  user_id : String
  type : String
  amount : Int
  status : String := "pending"
  reference : Option String := none
  deriving DecidableEq, Repr

/-- `schemas.Notification`. -/
structure Notification where
  user_id : String
  title : String
  message : String
  type : String := "info"
  is_read : Bool := false
  deriving DecidableEq, Repr

/-- The state touched by the wallet endpoints: the current user's two
balances (`schemas.User.coins` / `points`) plus the append-only
`transaction` and `notification` collections. -/
structure WalletState where
  coins : Int
  points : Int
  transactions : List Transaction
  notifications : List Notification
  deriving DecidableEq, Repr

/-- The collections read and written by the catalog / enrollment /
progress endpoints. -/
structure Store where
  lessons : List Lesson
  quizzes : List Quiz
  enrollments : List Enrollment
  lessonprogress : List ProgressDoc
  deriving DecidableEq, Repr

/-- Response body of `POST /api/lessons/{id}/submit-quiz`. -/
structure QuizResult where
  score : Int
  total : Int
  percentage : Int
  passed : Bool
  deriving DecidableEq, Repr

/-- Response body of `POST /api/wallet/buy-coins`. -/
structure BuyCoinsResponse where
  coins : Int
  message : String
  deriving DecidableEq, Repr

/-- Response body of `POST /api/wallet/exchange-points`. -/
structure ExchangeResponse where
  coins : Int
  points : Int
  deriving DecidableEq, Repr

deriving instance DecidableEq for Except

/-- `COIN_TO_POINTS = 100` in `main.py`. -/
def COIN_TO_POINTS : Int := 100

/-- `POST /api/wallet/buy-coins` (`buy_coins` in `main.py`), acting on the
current user's wallet state.  `payload.coins <= 0` is rejected with 400;
otherwise the coin balance is incremented and a success `Transaction` and
`Notification` are appended. -/
def buy_coins (uid : String) (req_coins : Int) (w : WalletState) :
    Except HTTPError (WalletState × BuyCoinsResponse) :=
  if req_coins ≤ 0 then
    .error ⟨400, "Invalid coin amount"⟩
  else
    let w1 : WalletState :=
      { w with
        coins := w.coins + req_coins,
        transactions := w.transactions ++
          [{ user_id := uid, type := "buy_coins", amount := req_coins,
             status := "success", reference := some "PAY-MOCK" }],
        notifications := w.notifications ++
          [{ user_id := uid, title := "Payment Successful",
             message := "Added " ++ toString req_coins ++ " coins",
             type := "success" }] }
    .ok (w1, { coins := w1.coins, message := "Coins added" })

/-- `POST /api/wallet/exchange-points` (`exchange_points` in `main.py`):
rejects `points <= 0`, computes `coins = points // COIN_TO_POINTS` (Python
floor division), rejects `coins <= 0`, then decrements points by
`coins * 100`, increments coins by `coins`, and appends a `Transaction`
and a `Notification`. -/
def exchange_points (uid : String) (req_points : Int) (w : WalletState) :
    Except HTTPError (WalletState × ExchangeResponse) :=
  if req_points ≤ 0 then
    .error ⟨400, "Invalid points"⟩
  else
    let coins := req_points.fdiv COIN_TO_POINTS
    if coins ≤ 0 then
      .error ⟨400, "Not enough points for 1 coin"⟩
    else
      let w1 : WalletState :=
        { w with
          points := w.points - coins * COIN_TO_POINTS,
          coins := w.coins + coins,
          transactions := w.transactions ++
            [{ user_id := uid, type := "exchange_points", amount := req_points,
               status := "success" }],
          notifications := w.notifications ++
            [{ user_id := uid, title := "Exchange Successful",
               message := "Converted " ++ toString (coins * COIN_TO_POINTS) ++
                 " points to " ++ toString coins ++ " coins",
               type := "success" }] }
      .ok (w1, { coins := w1.coins, points := w1.points })

/-- C4: buy-coins fails with 400 iff the requested amount is ≤ 0 (state
untouched: no state is produced on the error path, and the source raises
before any write); on success it adds exactly the requested amount to the
coin balance and appends exactly one success `Transaction` and one success
`Notification`. -/
theorem buy_coins_correct (uid : String) (req : Int) (w : WalletState) :
    (req ≤ 0 → buy_coins uid req w = .error ⟨400, "Invalid coin amount"⟩) ∧
    (0 < req → buy_coins uid req w = .ok
      ({ w with
         coins := w.coins + req,
         transactions := w.transactions ++
           [{ user_id := uid, type := "buy_coins", amount := req,
              status := "success", reference := some "PAY-MOCK" }],
         notifications := w.notifications ++
           [{ user_id := uid, title := "Payment Successful",
              message := "Added " ++ toString req ++ " coins",
              type := "success" }] },
       { coins := w.coins + req, message := "Coins added" })) := by
  constructor
  · intro h
    simp [buy_coins, h]
  · intro h
    simp [buy_coins, not_le.mpr h]

/-- C4 witness: `buy_coins(-5)` is rejected and `buy_coins(10)` adds
exactly 10 coins with one transaction and one notification, on the
concrete wallet `coins = 3, points = 7`. -/
theorem buy_coins_correct_witness :
    ((-5 : Int) ≤ 0 ∧
      buy_coins "u1" (-5) ⟨3, 7, [], []⟩ = .error ⟨400, "Invalid coin amount"⟩) ∧
    ((0 : Int) < 10 ∧
      buy_coins "u1" 10 ⟨3, 7, [], []⟩ = .ok
        ({ coins := (3 : Int) + 10, points := 7,
           transactions := [] ++
             [{ user_id := "u1", type := "buy_coins", amount := 10,
                status := "success", reference := some "PAY-MOCK" }],
           notifications := [] ++
             [{ user_id := "u1", title := "Payment Successful",
                message := "Added " ++ toString (10 : Int) ++ " coins",
                type := "success" }] },
         { coins := (3 : Int) + 10, message := "Coins added" })) :=
  ⟨⟨by decide, (buy_coins_correct "u1" (-5) ⟨3, 7, [], []⟩).1 (by decide)⟩,
   ⟨by decide, (buy_coins_correct "u1" 10 ⟨3, 7, [], []⟩).2 (by decide)⟩⟩

/-- C3: exchange-points rejects `points ≤ 0` with 400, rejects
`0 < points < 100` (i.e. `points // 100 ≤ 0`) with 400, and for
`points ≥ 100` it moves `coins = points // 100` into the coin balance,
removes `coins * 100` points, and appends one `Transaction` and one
`Notification`. -/
theorem exchange_points_correct (uid : String) (req : Int) (w : WalletState) :
    (req ≤ 0 → exchange_points uid req w = .error ⟨400, "Invalid points"⟩) ∧
    (0 < req → req < 100 →
      exchange_points uid req w = .error ⟨400, "Not enough points for 1 coin"⟩) ∧
    (100 ≤ req →
      exchange_points uid req w = .ok
        ({ w with
           points := w.points - req.fdiv 100 * 100,
           coins := w.coins + req.fdiv 100,
           transactions := w.transactions ++
             [{ user_id := uid, type := "exchange_points", amount := req,
                status := "success" }],
           notifications := w.notifications ++
             [{ user_id := uid, title := "Exchange Successful",
                message := "Converted " ++ toString (req.fdiv 100 * 100) ++
                  " points to " ++ toString (req.fdiv 100) ++ " coins",
                type := "success" }] },
         { coins := w.coins + req.fdiv 100,
           points := w.points - req.fdiv 100 * 100 })) := by
  refine ⟨fun h => by simp [exchange_points, h], fun h1 h2 => ?_, fun h => ?_⟩
  · have hz : req.fdiv 100 = 0 := by
      rw [Int.fdiv_eq_ediv _ (by norm_num)]
      exact Int.ediv_eq_zero_of_lt (le_of_lt h1) h2
    simp [exchange_points, not_le.mpr h1, COIN_TO_POINTS, hz]
  · have h1 : (0 : Int) < req := lt_of_lt_of_le (by norm_num) h
    have hpos : (1 : Int) ≤ req.fdiv 100 := by
      rw [Int.fdiv_eq_ediv _ (by norm_num)]
      calc (1 : Int) = 100 / 100 := by norm_num
        _ ≤ req / 100 := Int.ediv_le_ediv (by norm_num) h
    have hnotle : ¬ req.fdiv 100 ≤ 0 := not_le.mpr (lt_of_lt_of_le one_pos hpos)
    simp [exchange_points, not_le.mpr h1, COIN_TO_POINTS, hnotle]

/-- C3 witness: on the concrete wallet `coins = 1, points = 500`,
`exchange_points(250)` yields `coins += 2` and `points -= 200`
(`250 // 100 = 2`), while `exchange_points(50)` is rejected with 400. -/
theorem exchange_points_correct_witness :
    ((0 : Int) < 50 ∧ (50 : Int) < 100 ∧
      exchange_points "u1" 50 ⟨1, 500, [], []⟩ =
        .error ⟨400, "Not enough points for 1 coin"⟩) ∧
    ((100 : Int) ≤ 250 ∧ (250 : Int).fdiv 100 = 2 ∧
      exchange_points "u1" 250 ⟨1, 500, [], []⟩ = .ok
        ({ coins := (1 : Int) + (250 : Int).fdiv 100,
           points := (500 : Int) - (250 : Int).fdiv 100 * 100,
           transactions := [] ++
             [{ user_id := "u1", type := "exchange_points", amount := 250,
                status := "success" }],
           notifications := [] ++
             [{ user_id := "u1", title := "Exchange Successful",
                message := "Converted " ++ toString ((250 : Int).fdiv 100 * 100) ++
                  " points to " ++ toString ((250 : Int).fdiv 100) ++ " coins",
                type := "success" }] },
         { coins := (1 : Int) + (250 : Int).fdiv 100,
           points := (500 : Int) - (250 : Int).fdiv 100 * 100 })) :=
  ⟨⟨by decide, by decide,
    (exchange_points_correct "u1" 50 ⟨1, 500, [], []⟩).2.1 (by decide) (by decide)⟩,
   ⟨by decide, by decide,
    (exchange_points_correct "u1" 250 ⟨1, 500, [], []⟩).2.2 (by decide)⟩⟩

/-- C8 counterexample: starting from the nonnegative wallet
`coins = 0, points = 0`, the single sequential call `exchange_points(100)`
succeeds (the handler checks only the requested amount, never the stored
balance) and leaves the user's points at `-100 < 0`. -/
theorem exchange_points_drives_points_negative :
    exchange_points "u1" 100 ⟨0, 0, [], []⟩ = .ok
      ({ coins := 1, points := -100,
         transactions :=
           [{ user_id := "u1", type := "exchange_points", amount := 100,
              status := "success" }],
         notifications :=
           [{ user_id := "u1", title := "Exchange Successful",
              message := "Converted 100 points to 1 coins",
              type := "success" }] },
       { coins := 1, points := -100 }) ∧
    (-100 : Int) < 0 := by
  constructor
  · decide
  · decide

/-- C8 amended: starting from `coins ≥ 0` and `points ≥ 0`, buy-coins
preserves both `coins ≥ 0` and `points ≥ 0`, and exchange-points preserves
`coins ≥ 0`; exchange-points preserves `points ≥ 0` only under the extra
condition that the deducted amount `(points_req // 100) * 100` does not
exceed the stored points balance — the handler performs no balance check,
so without that condition the points balance can be driven negative. -/
theorem wallet_nonneg_preservation (uid : String) (req : Int)
    (w w1 w2 : WalletState) (r1 : BuyCoinsResponse) (r2 : ExchangeResponse)
    (hc : 0 ≤ w.coins) (hp : 0 ≤ w.points) :
    (buy_coins uid req w = .ok (w1, r1) → 0 ≤ w1.coins ∧ 0 ≤ w1.points) ∧
    (exchange_points uid req w = .ok (w2, r2) →
      0 ≤ w2.coins ∧ (req.fdiv 100 * 100 ≤ w.points → 0 ≤ w2.points)) := by
  constructor
  · intro hbuy
    by_cases h : req ≤ 0
    · simp [buy_coins, h] at hbuy
    · simp [buy_coins, h] at hbuy
      obtain ⟨hw, -⟩ := hbuy
      subst hw
      exact ⟨by simpa using add_nonneg hc (le_of_not_le h), hp⟩
  · intro hex
    by_cases h : req ≤ 0
    · simp [exchange_points, h] at hex
    · by_cases h2 : req.fdiv COIN_TO_POINTS ≤ 0
      · simp [exchange_points, h, h2] at hex
      · simp [exchange_points, h, h2] at hex
        obtain ⟨hw, -⟩ := hex
        subst hw
        refine ⟨by simpa using add_nonneg hc (le_of_not_le h2), fun hbal => ?_⟩
        simpa [COIN_TO_POINTS] using sub_nonneg.mpr hbal

/-- C8 witness: from the concrete wallet `coins = 0, points = 250`,
`exchange_points(250)` keeps both balances nonnegative
(`250 // 100 * 100 = 200 ≤ 250`). -/
theorem wallet_nonneg_preservation_witness :
    0 ≤ (0 : Int) ∧ 0 ≤ (250 : Int) ∧
    (0 : Int) ≤ (2 : Int) ∧ (0 : Int) ≤ (50 : Int) := by
  refine ⟨by decide, by decide, ?_⟩
  have h := (wallet_nonneg_preservation "u1" 250 ⟨0, 250, [], []⟩
    ⟨0, 250, [], []⟩
    ({ coins := 2, points := 50,
       transactions :=
         [{ user_id := "u1", type := "exchange_points", amount := 250,
            status := "success" }],
       notifications :=
         [{ user_id := "u1", title := "Exchange Successful",
            message := "Converted 200 points to 2 coins",
            type := "success" }] })
    ⟨0, ""⟩ ⟨2, 50⟩ (by decide) (by decide)).2 (by decide)
  exact ⟨h.1, h.2 (by decide)⟩

/-- The scoring loop of `submit_quiz`: walk the questions in order and, while
an answer at the same index exists, award the question's points when the
answer equals its `correct_index`. -/
def gradeScore : List Question → List Int → Int
  | [], _ => 0
  | _ :: _, [] => 0
  | q :: qs, a :: as =>
      (if a = q.correct_index then q.points else 0) + gradeScore qs as

/-- `sum(q.get("points", 1) for q in questions)` in `submit_quiz`. -/
def sumPoints (qs : List Question) : Int :=
  (qs.map (fun q => q.points)).sum

/-- The pure grading part of `submit_quiz`: score, `max_points` (the point
sum, replaced by 1 when it is 0, via Python's `or 1`), the percentage
`int((score / max_points) * 100)` — exact-rational quotient truncated
toward zero, i.e. `Int.tdiv` — and the pass flag. -/
def gradeQuiz (quiz : Quiz) (answers : List Int) : QuizResult :=
  let score := gradeScore quiz.questions answers
  let s := sumPoints quiz.questions
  let max_points := if s = 0 then 1 else s
  let pct := Int.tdiv (score * 100) max_points
  { score := score, total := max_points, percentage := pct,
    passed := decide (quiz.pass_percentage ≤ pct) }

instance : Inhabited Question := ⟨{ prompt := "", options := [], correct_index := 0 }⟩

/-- The score as the claim words it: the sum, over question indices `i`, of
question `i`'s points exactly when the submitted answer at index `i` equals
that question's `correct_index`. -/
def claimScore (qs : List Question) (ans : List Int) : Int :=
  ∑ i ∈ Finset.range qs.length,
    if i < ans.length ∧ ans.getD i 0 = (qs.getD i default).correct_index
    then (qs.getD i default).points else 0

/-- The total as the claim words it: the sum of all question points,
defaulting to 1 to avoid division by zero. -/
def claimTotal (qs : List Question) : Int :=
  let s := ∑ i ∈ Finset.range qs.length, (qs.getD i default).points
  if s = 0 then 1 else s

/-- The mongo filter `{"user_id": uid, "lesson_id": lid}` on
`lessonprogress` documents. -/
def progKey (uid lid : String) (d : ProgressDoc) : Bool :=
  d.user_id == uid && d.lesson_id == lid

/-- `update_one(filter, {"$set": ...}, upsert=True)`: update the first
document matching `m` with `u`, or append the fresh document `n` when no
document matches. -/
def upsertWith (m : ProgressDoc → Bool) (u : ProgressDoc → ProgressDoc)
    (n : ProgressDoc) : List ProgressDoc → List ProgressDoc
  | [] => [n]
  | d :: ds => if m d then u d :: ds else d :: upsertWith m u n ds

/-- `db.lessonprogress.find_one({"user_id": uid, "lesson_id": lid})`. -/
def findProg (docs : List ProgressDoc) (uid lid : String) : Option ProgressDoc :=
  docs.find? (progKey uid lid)

/-- The unlock state of the `(user, lesson)` progress record: the value of
its `is_unlocked` field, `false` when the field or the record is absent. -/
def unlockedIn (docs : List ProgressDoc) (uid lid : String) : Bool :=
  match findProg docs uid lid with
  | some d => d.is_unlocked.getD false
  | none => false

/-- The completion state of the `(user, lesson)` progress record. -/
def completedIn (docs : List ProgressDoc) (uid lid : String) : Bool :=
  match findProg docs uid lid with
  | some d => d.is_completed.getD false
  | none => false

/-- The recorded `quiz_score` of the `(user, lesson)` progress record. -/
def scoreIn (docs : List ProgressDoc) (uid lid : String) : Option Int :=
  (findProg docs uid lid).bind (fun d => d.quiz_score)

/-- The recorded `quiz_total` of the `(user, lesson)` progress record. -/
def totalIn (docs : List ProgressDoc) (uid lid : String) : Option Int :=
  (findProg docs uid lid).bind (fun d => d.quiz_total)

/-- The `course_id` field of the `(user, lesson)` progress record
(`some none` = record present, field absent). -/
def courseIn (docs : List ProgressDoc) (uid lid : String) : Option (Option String) :=
  (findProg docs uid lid).map (fun d => d.course_id)

/-- `find_one(query, sort=[("order", 1)])` on lessons: the first lesson
attaining the minimal `order` (earlier documents win ties). -/
def minByOrder : List Lesson → Option Lesson
  | [] => none
  | l :: ls =>
      match minByOrder ls with
      | none => some l
      | some m => if l.order ≤ m.order then some l else some m

/-- `db.lesson.find_one({"course_id": cid, "order": {"$gt": ord}},
sort=[("order", 1)])`: the lesson of course `cid` with the lowest order
strictly greater than `ord`. -/
def nextLesson (lessons : List Lesson) (cid : String) (ord : Int) : Option Lesson :=
  minByOrder (lessons.filter (fun l => l.course_id == cid && decide (ord < l.order)))

/-- The `$set` clause of the completion upsert in `submit_quiz`, applied to
an existing document. -/
def completionUpdate (score total : Int) (d : ProgressDoc) : ProgressDoc :=
  { d with is_completed := some true, quiz_score := some score,
           quiz_total := some total }

/-- The document created by the completion upsert of `submit_quiz` when no
`(user, lesson)` record exists: filter fields plus `$set` fields only — in
particular no `course_id` and no `is_unlocked`. -/
def completionNew (uid lid : String) (score total : Int) : ProgressDoc :=
  { user_id := uid, lesson_id := lid, is_completed := some true,
    quiz_score := some score, quiz_total := some total }

/-- The `$set` clause of the next-lesson unlock upsert in `submit_quiz`,
applied to an existing document. -/
def unlockUpdate (uid cid nid : String) (d : ProgressDoc) : ProgressDoc :=
  { d with user_id := uid, course_id := some cid, lesson_id := nid,
           is_unlocked := some true }

/-- The document created by the unlock upsert when no record exists. -/
def unlockNew (uid cid nid : String) : ProgressDoc :=
  { user_id := uid, lesson_id := nid, course_id := some cid,
    is_unlocked := some true }

/-- The state effect of `submit_quiz` once the quiz has been found: upsert
the completion record, then — when the submission passed and both the
submitted lesson and a strictly-later lesson of its course exist — upsert
that next lesson's record to unlocked. -/
def afterQuiz (uid lid : String) (quiz : Quiz) (answers : List Int)
    (st : Store) : Store :=
  let res := gradeQuiz quiz answers
  let docs1 :=
    upsertWith (progKey uid lid) (completionUpdate res.score res.total)
      (completionNew uid lid res.score res.total) st.lessonprogress
  let st1 : Store := { st with lessonprogress := docs1 }
  if res.passed then
    match st1.lessons.find? (fun l => l.id == lid) with
    | none => st1
    | some lesson =>
        match nextLesson st1.lessons lesson.course_id lesson.order with
        | none => st1
        | some nxt =>
            let docs2 :=
              upsertWith (progKey uid nxt.id)
                (unlockUpdate uid lesson.course_id nxt.id)
                (unlockNew uid lesson.course_id nxt.id) st1.lessonprogress
            { st1 with lessonprogress := docs2 }
  else st1

/-- `POST /api/lessons/{lesson_id}/submit-quiz` (`submit_quiz` in
`main.py`): 404 when the lesson has no quiz, otherwise grade, record
completion, conditionally unlock the next lesson, and return the result. -/
def submit_quiz (uid lid : String) (answers : List Int) (st : Store) :
    Except HTTPError (Store × QuizResult) :=
  match st.quizzes.find? (fun q => q.lesson_id == lid) with
  | none => .error ⟨404, "Quiz not found"⟩
  | some quiz => .ok (afterQuiz uid lid quiz answers st, gradeQuiz quiz answers)

/-- `GET /api/lessons/{lesson_id}/quiz` (`get_quiz` in `main.py`): when no
quiz document exists for the lesson the handler returns a default empty
quiz (`questions = []`, `pass_percentage = 60`) — it does not raise. -/
def get_quiz (lid : String) (st : Store) : Except HTTPError Quiz :=
  match st.quizzes.find? (fun q => q.lesson_id == lid) with
  | none => .ok { lesson_id := lid, questions := [], pass_percentage := 60 }
  | some q => .ok q

/-- The store produced by a first (successful) enrollment: append the
enrollment document, then — when the course has a lesson — append an
unlocked `LessonProgress` document for its lowest-order lesson, with all
schema fields present (`LessonProgress` model defaults). -/
def enrollSuccessStore (enr : Enrollment) (st : Store) : Store :=
  let st1 : Store := { st with enrollments := st.enrollments ++ [enr] }
  match minByOrder (st1.lessons.filter (fun l => l.course_id == enr.course_id)) with
  | none => st1
  | some fl =>
      { st1 with lessonprogress := st1.lessonprogress ++
          [{ user_id := enr.user_id, course_id := some enr.course_id,
             lesson_id := fl.id, is_unlocked := some true,
             is_completed := some false }] }

/-- Response of `POST /api/enroll`. -/
inductive EnrollResult where
  | message (m : String)
  | enrollment_id (id : String)
  deriving DecidableEq, Repr

/-- `POST /api/enroll` (`enroll` in `main.py`): 403 when enrolling on
behalf of another user; no-op with `"Already enrolled"` when an enrollment
for the `(user, course)` pair exists; otherwise create the enrollment and
unlock the course's first lesson.  Generated document ids are modelled by
the enrollment collection's size. -/
def enroll (current_uid : String) (enr : Enrollment) (st : Store) :
    Except HTTPError (Store × EnrollResult) :=
  if current_uid ≠ enr.user_id then
    .error ⟨403, "Cannot enroll for another user"⟩
  else
    match st.enrollments.find?
        (fun e => e.user_id == enr.user_id && e.course_id == enr.course_id) with
    | some _ => .ok (st, .message "Already enrolled")
    | none => .ok (enrollSuccessStore enr st,
        .enrollment_id (toString st.enrollments.length))

/-- `GET /api/me/progress` (`my_progress` in `main.py`): the current
user's progress documents, optionally filtered by `course_id`; a document
whose `course_id` field is absent never matches an equality filter. -/
def my_progress (uid : String) (course_id : Option String) (st : Store) :
    List ProgressDoc :=
  st.lessonprogress.filter (fun d =>
    d.user_id == uid &&
      match course_id with
      | none => true
      | some c => d.course_id == some c)

/-- `GET /api/admin/reports/progress` (`admin_reports_progress` in
`main.py`): all progress documents whose `course_id` equals the query. -/
def admin_reports_progress (cid : String) (st : Store) : List ProgressDoc :=
  st.lessonprogress.filter (fun d => d.course_id == some cid)

/-- The scoring loop computes exactly the claim's indexed sum. -/
theorem gradeScore_eq_claimScore (qs : List Question) (ans : List Int) :
    gradeScore qs ans = claimScore qs ans := by
  induction qs generalizing ans with
  | nil => simp [gradeScore, claimScore]
  | cons q qs ih =>
    cases ans with
    | nil => simp [gradeScore, claimScore]
    | cons a as =>
      simp only [claimScore, List.length_cons]
      rw [Finset.sum_range_succ']
      simp only [List.getD_cons_succ, List.getD_cons_zero,
        Nat.add_lt_add_iff_right, Nat.zero_lt_succ, true_and]
      rw [show gradeScore (q :: qs) (a :: as) =
        (if a = q.correct_index then q.points else 0) + gradeScore qs as from rfl]
      rw [ih as]
      rw [claimScore]
      omega

/-- The point sum of the loop equals the claim's indexed sum. -/
theorem sumPoints_eq_claim (qs : List Question) :
    sumPoints qs = ∑ i ∈ Finset.range qs.length, (qs.getD i default).points := by
  induction qs with
  | nil => simp [sumPoints]
  | cons q qs ih =>
    simp only [List.length_cons]
    rw [Finset.sum_range_succ']
    simp only [List.getD_cons_succ, List.getD_cons_zero]
    rw [show sumPoints (q :: qs) = q.points + sumPoints qs by
      simp [sumPoints]]
    rw [ih]
    omega

/-- C1: for every submission on a lesson whose quiz exists, the returned
score is the sum over question indices of the question's points exactly
when the answer there equals its `correct_index`; the total is the sum of
all question points, defaulted to 1 to avoid division by zero; the
percentage is `(score/total)*100` truncated to an integer; and `passed`
holds exactly when the percentage reaches the quiz's `pass_percentage`. -/
theorem submit_quiz_grading_spec (st : Store) (uid lid : String)
    (ans : List Int) (quiz : Quiz)
    (hq : st.quizzes.find? (fun q => q.lesson_id == lid) = some quiz) :
    submit_quiz uid lid ans st = .ok (afterQuiz uid lid quiz ans st,
      { score := claimScore quiz.questions ans,
        total := claimTotal quiz.questions,
        percentage := Int.tdiv (claimScore quiz.questions ans * 100)
          (claimTotal quiz.questions),
        passed := decide (quiz.pass_percentage ≤
          Int.tdiv (claimScore quiz.questions ans * 100)
            (claimTotal quiz.questions)) }) := by
  have hg : gradeQuiz quiz ans =
      { score := claimScore quiz.questions ans,
        total := claimTotal quiz.questions,
        percentage := Int.tdiv (claimScore quiz.questions ans * 100)
          (claimTotal quiz.questions),
        passed := decide (quiz.pass_percentage ≤
          Int.tdiv (claimScore quiz.questions ans * 100)
            (claimTotal quiz.questions)) } := by
    simp only [gradeQuiz, claimTotal, gradeScore_eq_claimScore, sumPoints_eq_claim]
  simp only [submit_quiz, hq, hg]

/-- A concrete one-question quiz (2 points, pass at 60%) and a store
holding it, used as witness scenario. -/
def quizW : Quiz :=
  { lesson_id := "l1",
    questions := [{ prompt := "p", options := ["a", "b"],
                    correct_index := 0, points := 2 }],
    pass_percentage := 60 }

/-- Witness store: only the quiz, no lessons / enrollments / progress. -/
def storeW : Store :=
  { lessons := [], quizzes := [quizW], enrollments := [], lessonprogress := [] }

/-- C1 witness: the grading spec applied to the concrete store `storeW`
and the all-correct answer list `[0]`. -/
theorem submit_quiz_grading_spec_witness :
    storeW.quizzes.find? (fun q => q.lesson_id == "l1") = some quizW ∧
    submit_quiz "u1" "l1" [0] storeW = .ok (afterQuiz "u1" "l1" quizW [0] storeW,
      { score := claimScore quizW.questions [0],
        total := claimTotal quizW.questions,
        percentage := Int.tdiv (claimScore quizW.questions [0] * 100)
          (claimTotal quizW.questions),
        passed := decide (quizW.pass_percentage ≤
          Int.tdiv (claimScore quizW.questions [0] * 100)
            (claimTotal quizW.questions)) }) :=
  ⟨by decide, submit_quiz_grading_spec storeW "u1" "l1" [0] quizW (by decide)⟩

/-- A quiz with a negatively-weighted question, refuting C2. -/
def quizNeg : Quiz :=
  { lesson_id := "l1",
    questions :=
      [{ prompt := "q1", options := ["a", "b"], correct_index := 0, points := 1 },
       { prompt := "q2", options := ["a", "b"], correct_index := 0, points := -5 }],
    pass_percentage := 60 }

/-- Store holding only `quizNeg`. -/
def storeNeg : Store :=
  { lessons := [], quizzes := [quizNeg], enrollments := [], lessonprogress := [] }

/-- C2 counterexample: `Question.points` is an unconstrained int, so with a
correctly answered 1-point question and an incorrectly answered
(-5)-point question the submission returns `score = 1`, `total = -4`
and `percentage = -25`: the percentage is negative and the score exceeds
the total. -/
theorem quiz_percentage_negative_example :
    submit_quiz "u1" "l1" [0, 1] storeNeg = .ok
      ({ lessons := [], quizzes := [quizNeg], enrollments := [],
         lessonprogress := [completionNew "u1" "l1" 1 (-4)] },
       { score := 1, total := -4, percentage := -25, passed := false }) ∧
    (-25 : Int) < 0 ∧ (-4 : Int) < 1 := by
  refine ⟨by decide, by decide, by decide⟩

/-- A point sum over questions with nonnegative points is nonnegative. -/
theorem sumPoints_nonneg (qs : List Question)
    (h : ∀ q ∈ qs, 0 ≤ q.points) : 0 ≤ sumPoints qs := by
  unfold sumPoints
  apply List.sum_nonneg
  intro x hx
  obtain ⟨q, hqm, rfl⟩ := List.mem_map.mp hx
  exact h q hqm

/-- The loop score is nonnegative when all question points are. -/
theorem gradeScore_nonneg (qs : List Question) (ans : List Int)
    (h : ∀ q ∈ qs, 0 ≤ q.points) : 0 ≤ gradeScore qs ans := by
  induction qs generalizing ans with
  | nil => simp [gradeScore]
  | cons q qs ih =>
    cases ans with
    | nil => simp [gradeScore]
    | cons a as =>
      have h1 : 0 ≤ q.points := h q (List.mem_cons_self q qs)
      have h2 := ih as (fun x hx => h x (List.mem_cons_of_mem _ hx))
      have h3 : 0 ≤ (if a = q.correct_index then q.points else 0) := by
        split
        · exact h1
        · exact le_refl 0
      rw [show gradeScore (q :: qs) (a :: as) =
        (if a = q.correct_index then q.points else 0) + gradeScore qs as from rfl]
      omega

/-- The loop score never exceeds the point sum when all points are ≥ 0. -/
theorem gradeScore_le_sumPoints (qs : List Question) (ans : List Int)
    (h : ∀ q ∈ qs, 0 ≤ q.points) : gradeScore qs ans ≤ sumPoints qs := by
  induction qs generalizing ans with
  | nil => simp [gradeScore, sumPoints]
  | cons q qs ih =>
    have h1 : 0 ≤ q.points := h q (List.mem_cons_self q qs)
    have hrest : ∀ x ∈ qs, 0 ≤ x.points :=
      fun x hx => h x (List.mem_cons_of_mem _ hx)
    have hsum : sumPoints (q :: qs) = q.points + sumPoints qs := by
      simp [sumPoints]
    cases ans with
    | nil =>
      have h4 : 0 ≤ sumPoints qs := sumPoints_nonneg qs hrest
      rw [show gradeScore (q :: qs) ([] : List Int) = 0 from rfl, hsum]
      omega
    | cons a as =>
      have h2 := ih as hrest
      have h3 : (if a = q.correct_index then q.points else 0) ≤ q.points := by
        split
        · exact le_refl _
        · exact h1
      rw [show gradeScore (q :: qs) (a :: as) =
        (if a = q.correct_index then q.points else 0) + gradeScore qs as from rfl,
        hsum]
      omega

/-- C2 amended: for every submission on a quiz all of whose question point
values are nonnegative (any answer list), the returned percentage lies in
`[0, 100]` and the returned score does not exceed the returned total.
(With negative point values the code violates both bounds, see the
counterexample.) -/
theorem submit_quiz_bounds_nonneg_points (st : Store) (uid lid : String)
    (ans : List Int) (quiz : Quiz) (st' : Store) (res : QuizResult)
    (hpts : ∀ q ∈ quiz.questions, 0 ≤ q.points)
    (hq : st.quizzes.find? (fun q => q.lesson_id == lid) = some quiz)
    (hrun : submit_quiz uid lid ans st = .ok (st', res)) :
    0 ≤ res.percentage ∧ res.percentage ≤ 100 ∧ res.score ≤ res.total := by
  have hres : res = gradeQuiz quiz ans := by
    simp only [submit_quiz, hq, Except.ok.injEq, Prod.mk.injEq] at hrun
    exact hrun.2.symm
  subst hres
  have hs0 : 0 ≤ gradeScore quiz.questions ans := gradeScore_nonneg _ _ hpts
  have hsl : gradeScore quiz.questions ans ≤ sumPoints quiz.questions :=
    gradeScore_le_sumPoints _ _ hpts
  have hsn : 0 ≤ sumPoints quiz.questions := sumPoints_nonneg _ hpts
  by_cases hz : sumPoints quiz.questions = 0
  · have hsc : gradeScore quiz.questions ans = 0 :=
      le_antisymm (hz ▸ hsl) hs0
    simp [gradeQuiz, hz, hsc]
  · have hpos : 0 < sumPoints quiz.questions := lt_of_le_of_ne hsn (Ne.symm hz)
    have hm0 : 0 ≤ gradeScore quiz.questions ans * 100 :=
      mul_nonneg hs0 (by norm_num)
    have hb1 : 0 ≤ Int.tdiv (gradeScore quiz.questions ans * 100)
        (sumPoints quiz.questions) := by
      rw [Int.tdiv_eq_ediv hm0 (le_of_lt hpos)]
      exact Int.ediv_nonneg hm0 (le_of_lt hpos)
    have hb2 : Int.tdiv (gradeScore quiz.questions ans * 100)
        (sumPoints quiz.questions) ≤ 100 := by
      rw [Int.tdiv_eq_ediv hm0 (le_of_lt hpos)]
      calc gradeScore quiz.questions ans * 100 / sumPoints quiz.questions
          ≤ sumPoints quiz.questions * 100 / sumPoints quiz.questions :=
            Int.ediv_le_ediv hpos (mul_le_mul_of_nonneg_right hsl (by norm_num))
        _ = 100 := Int.mul_ediv_cancel_left 100 (ne_of_gt hpos)
    simp only [gradeQuiz, hz, if_false]
    exact ⟨hb1, hb2, hsl⟩

/-- C2 witness: the bounds applied to the concrete store `storeW` (one
2-point question) with the all-correct answer list `[0]`: percentage 100,
score 2 = total 2. -/
theorem submit_quiz_bounds_nonneg_points_witness :
    (∀ q ∈ quizW.questions, 0 ≤ q.points) ∧
    submit_quiz "u1" "l1" [0] storeW = .ok
      ({ lessons := [], quizzes := [quizW], enrollments := [],
         lessonprogress := [completionNew "u1" "l1" 2 2] },
       { score := 2, total := 2, percentage := 100, passed := true }) ∧
    (0 ≤ (100 : Int) ∧ (100 : Int) ≤ 100 ∧ (2 : Int) ≤ 2) :=
  ⟨by decide, by decide,
   submit_quiz_bounds_nonneg_points storeW "u1" "l1" [0] quizW
     ({ lessons := [], quizzes := [quizW], enrollments := [],
        lessonprogress := [completionNew "u1" "l1" 2 2] })
     { score := 2, total := 2, percentage := 100, passed := true }
     (by decide) (by decide) (by decide)⟩

/-- A document matching the `(user, lesson)` filter has exactly those key
fields. -/
theorem progKey_eq (uid lid : String) (d : ProgressDoc)
    (h : progKey uid lid d = true) : d.user_id = uid ∧ d.lesson_id = lid := by
  simp only [progKey, Bool.and_eq_true, beq_iff_eq] at h
  exact h

/-- An upsert whose update preserves the keys and the field read by `g`,
and whose fresh document leaves that field absent, does not change the
value of `g` at any `(user, lesson)` key. -/
theorem bind_find_upsert_frame {β : Type} (g : ProgressDoc → Option β)
    (m : ProgressDoc → Bool) (u : ProgressDoc → ProgressDoc) (n : ProgressDoc)
    (hu : ∀ d, m d = true →
      (u d).user_id = d.user_id ∧ (u d).lesson_id = d.lesson_id ∧ g (u d) = g d)
    (hn : g n = none)
    (docs : List ProgressDoc) (u2 l2 : String) :
    ((upsertWith m u n docs).find? (progKey u2 l2)).bind g =
      (docs.find? (progKey u2 l2)).bind g := by
  induction docs with
  | nil =>
    by_cases hk : progKey u2 l2 n = true
    · rw [show upsertWith m u n [] = [n] from rfl]
      rw [List.find?_cons_of_pos _ hk]
      simp [hn]
    · rw [show upsertWith m u n [] = [n] from rfl]
      rw [List.find?_cons_of_neg _ hk]
  | cons d ds ih =>
    by_cases hm : m d = true
    · obtain ⟨h1, h2, h3⟩ := hu d hm
      have hkey : progKey u2 l2 (u d) = progKey u2 l2 d := by
        simp [progKey, h1, h2]
      rw [show upsertWith m u n (d :: ds) = u d :: ds by simp [upsertWith, hm]]
      by_cases hp : progKey u2 l2 d = true
      · rw [List.find?_cons_of_pos _ (hkey.trans hp), List.find?_cons_of_pos _ hp]
        simp [h3]
      · rw [List.find?_cons_of_neg _ (by rw [hkey]; exact hp),
          List.find?_cons_of_neg _ hp]
    · rw [show upsertWith m u n (d :: ds) = d :: upsertWith m u n ds by
        simp [upsertWith, hm]]
      by_cases hp : progKey u2 l2 d = true
      · rw [List.find?_cons_of_pos _ hp, List.find?_cons_of_pos _ hp]
      · rw [List.find?_cons_of_neg _ hp, List.find?_cons_of_neg _ hp]
        exact ih

/-- An upsert whose filter, update results and fresh document all fail a
predicate leaves `find?` of that predicate unchanged. -/
theorem find_upsert_other (m : ProgressDoc → Bool) (u : ProgressDoc → ProgressDoc)
    (n : ProgressDoc) (p : ProgressDoc → Bool)
    (hmp : ∀ d, m d = true → p d = false)
    (hup : ∀ d, m d = true → p (u d) = false)
    (hnp : p n = false)
    (docs : List ProgressDoc) :
    (upsertWith m u n docs).find? p = docs.find? p := by
  induction docs with
  | nil =>
    rw [show upsertWith m u n [] = [n] from rfl]
    rw [List.find?_cons_of_neg _ (by simp [hnp])]
  | cons d ds ih =>
    by_cases hm : m d = true
    · rw [show upsertWith m u n (d :: ds) = u d :: ds by simp [upsertWith, hm]]
      rw [List.find?_cons_of_neg _ (by simp [hup d hm]),
        List.find?_cons_of_neg _ (by simp [hmp d hm])]
    · rw [show upsertWith m u n (d :: ds) = d :: upsertWith m u n ds by
        simp [upsertWith, hm]]
      by_cases hp : p d = true
      · rw [List.find?_cons_of_pos _ hp, List.find?_cons_of_pos _ hp]
      · rw [List.find?_cons_of_neg _ hp, List.find?_cons_of_neg _ hp]
        exact ih

/-- After the unlock upsert, the `(user, next-lesson)` record is unlocked. -/
theorem unlockedIn_upsert_unlock_self (uid cid nid : String)
    (docs : List ProgressDoc) :
    unlockedIn (upsertWith (progKey uid nid) (unlockUpdate uid cid nid)
      (unlockNew uid cid nid) docs) uid nid = true := by
  induction docs with
  | nil =>
    rw [show upsertWith (progKey uid nid) (unlockUpdate uid cid nid)
      (unlockNew uid cid nid) [] = [unlockNew uid cid nid] from rfl]
    simp [unlockedIn, findProg, List.find?_cons_of_pos, progKey, unlockNew]
  | cons d ds ih =>
    by_cases hm : progKey uid nid d = true
    · rw [show upsertWith (progKey uid nid) (unlockUpdate uid cid nid)
        (unlockNew uid cid nid) (d :: ds) = unlockUpdate uid cid nid d :: ds by
        simp [upsertWith, hm]]
      simp [unlockedIn, findProg, List.find?_cons_of_pos, progKey, unlockUpdate]
    · rw [show upsertWith (progKey uid nid) (unlockUpdate uid cid nid)
        (unlockNew uid cid nid) (d :: ds) =
        d :: upsertWith (progKey uid nid) (unlockUpdate uid cid nid)
          (unlockNew uid cid nid) ds by simp [upsertWith, hm]]
      simpa [unlockedIn, findProg, List.find?_cons_of_neg _ hm] using ih

/-- When no document matches the filter, an upsert is an append. -/
theorem upsertWith_no_match (m : ProgressDoc → Bool) (u : ProgressDoc → ProgressDoc)
    (n : ProgressDoc) (docs : List ProgressDoc)
    (h : ∀ d ∈ docs, m d = false) :
    upsertWith m u n docs = docs ++ [n] := by
  induction docs with
  | nil => rfl
  | cons d ds ih =>
    have hd : m d = false := h d (List.mem_cons_self d ds)
    rw [show upsertWith m u n (d :: ds) = d :: upsertWith m u n ds by
      simp [upsertWith, hd]]
    rw [ih (fun x hx => h x (List.mem_cons_of_mem _ hx))]
    rfl

/-- Every document of an upserted collection is an original document, an
updated original document, or the fresh document. -/
theorem mem_upsertWith (m : ProgressDoc → Bool) (u : ProgressDoc → ProgressDoc)
    (n : ProgressDoc) (docs : List ProgressDoc) (d : ProgressDoc)
    (hd : d ∈ upsertWith m u n docs) :
    d ∈ docs ∨ (∃ d0 ∈ docs, m d0 = true ∧ d = u d0) ∨ d = n := by
  induction docs with
  | nil =>
    rw [show upsertWith m u n [] = [n] from rfl] at hd
    rcases List.mem_singleton.mp hd with rfl
    exact Or.inr (Or.inr rfl)
  | cons x ds ih =>
    by_cases hm : m x = true
    · rw [show upsertWith m u n (x :: ds) = u x :: ds by simp [upsertWith, hm]] at hd
      rcases List.mem_cons.mp hd with rfl | hmem
      · exact Or.inr (Or.inl ⟨x, List.mem_cons_self x ds, hm, rfl⟩)
      · exact Or.inl (List.mem_cons_of_mem _ hmem)
    · rw [show upsertWith m u n (x :: ds) = x :: upsertWith m u n ds by
        simp [upsertWith, hm]] at hd
      rcases List.mem_cons.mp hd with rfl | hmem
      · exact Or.inl (List.mem_cons_self _ _)
      · rcases ih hmem with h1 | h2 | h3
        · exact Or.inl (List.mem_cons_of_mem _ h1)
        · obtain ⟨d0, hd0, hmd0, hud0⟩ := h2
          exact Or.inr (Or.inl ⟨d0, List.mem_cons_of_mem _ hd0, hmd0, hud0⟩)
        · exact Or.inr (Or.inr h3)

/-- After the completion upsert, the `(user, lesson)` record exists and
carries `is_completed = true` and the recorded score and total. -/
theorem findProg_upsert_completion_self (uid lid : String) (score total : Int)
    (docs : List ProgressDoc) :
    ∃ d, (upsertWith (progKey uid lid) (completionUpdate score total)
        (completionNew uid lid score total) docs).find? (progKey uid lid) = some d ∧
      d.is_completed = some true ∧ d.quiz_score = some score ∧
      d.quiz_total = some total := by
  induction docs with
  | nil =>
    refine ⟨completionNew uid lid score total, ?_, rfl, rfl, rfl⟩
    rw [show upsertWith (progKey uid lid) (completionUpdate score total)
      (completionNew uid lid score total) [] =
      [completionNew uid lid score total] from rfl]
    exact List.find?_cons_of_pos _ (by simp [progKey, completionNew])
  | cons d ds ih =>
    by_cases hm : progKey uid lid d = true
    · refine ⟨completionUpdate score total d, ?_, rfl, rfl, rfl⟩
      rw [show upsertWith (progKey uid lid) (completionUpdate score total)
        (completionNew uid lid score total) (d :: ds) =
        completionUpdate score total d :: ds by simp [upsertWith, hm]]
      refine List.find?_cons_of_pos _ ?_
      obtain ⟨h1, h2⟩ := progKey_eq uid lid d hm
      simp [progKey, completionUpdate, h1, h2]
    · obtain ⟨d2, hfind, hc, hs, ht⟩ := ih
      refine ⟨d2, ?_, hc, hs, ht⟩
      rw [show upsertWith (progKey uid lid) (completionUpdate score total)
        (completionNew uid lid score total) (d :: ds) =
        d :: upsertWith (progKey uid lid) (completionUpdate score total)
          (completionNew uid lid score total) ds by simp [upsertWith, hm]]
      rw [List.find?_cons_of_neg _ hm]
      exact hfind

/-- `minByOrder` never fails on a nonempty list. -/
theorem minByOrder_eq_none (ls : List Lesson) :
    minByOrder ls = none ↔ ls = [] := by
  cases ls with
  | nil => simp [minByOrder]
  | cons l ls =>
    simp only [minByOrder]
    cases minByOrder ls with
    | none => simp
    | some m =>
      by_cases h : l.order ≤ m.order <;> simp [h]

/-- `minByOrder` returns a member of the list. -/
theorem minByOrder_mem (ls : List Lesson) (m : Lesson)
    (h : minByOrder ls = some m) : m ∈ ls := by
  induction ls with
  | nil => simp [minByOrder] at h
  | cons l ls ih =>
    simp only [minByOrder] at h
    cases hm : minByOrder ls with
    | none =>
      simp only [hm, Option.some.injEq] at h
      subst h
      exact List.mem_cons_self _ _
    | some m2 =>
      simp only [hm] at h
      by_cases hle : l.order ≤ m2.order
      · rw [if_pos hle] at h
        simp only [Option.some.injEq] at h
        subst h
        exact List.mem_cons_self _ _
      · rw [if_neg hle] at h
        simp only [Option.some.injEq] at h
        subst h
        exact List.mem_cons_of_mem _ (ih hm)

/-- `minByOrder` returns a lesson of minimal `order`. -/
theorem minByOrder_min (ls : List Lesson) :
    ∀ m, minByOrder ls = some m → ∀ x ∈ ls, m.order ≤ x.order := by
  induction ls with
  | nil =>
    intro m h
    simp [minByOrder] at h
  | cons l ls ih =>
    intro m h x hx
    simp only [minByOrder] at h
    cases hm : minByOrder ls with
    | none =>
      have hnil : ls = [] := (minByOrder_eq_none ls).mp hm
      subst hnil
      simp only [hm, Option.some.injEq] at h
      subst h
      rcases List.mem_cons.mp hx with rfl | hmem
      · exact le_refl _
      · simp at hmem
    | some m2 =>
      simp only [hm] at h
      by_cases hle : l.order ≤ m2.order
      · rw [if_pos hle] at h
        simp only [Option.some.injEq] at h
        subst h
        rcases List.mem_cons.mp hx with rfl | hmem
        · exact le_refl _
        · exact le_trans hle (ih m2 hm x hmem)
      · rw [if_neg hle] at h
        simp only [Option.some.injEq] at h
        subst h
        rcases List.mem_cons.mp hx with rfl | hmem
        · exact le_of_lt (lt_of_not_le hle)
        · exact ih m2 hm x hmem

/-- `nextLesson` returns a strictly later lesson of the course, minimal
among all strictly later lessons of the course. -/
theorem nextLesson_spec (lessons : List Lesson) (cid : String) (ord : Int)
    (nxt : Lesson) (h : nextLesson lessons cid ord = some nxt) :
    nxt ∈ lessons ∧ nxt.course_id = cid ∧ ord < nxt.order ∧
      ∀ l ∈ lessons, l.course_id = cid → ord < l.order → nxt.order ≤ l.order := by
  unfold nextLesson at h
  have hmem := minByOrder_mem _ _ h
  have hmin := minByOrder_min _ _ h
  rw [List.mem_filter] at hmem
  obtain ⟨hmem1, hmem2⟩ := hmem
  simp only [Bool.and_eq_true, beq_iff_eq, decide_eq_true_eq] at hmem2
  refine ⟨hmem1, hmem2.1, hmem2.2, fun l hl hcid hord => ?_⟩
  refine hmin l (List.mem_filter.mpr ⟨hl, ?_⟩)
  simp [hcid, hord]

/-- C5: enrolling when an enrollment for the `(user, course)` pair exists
returns "Already enrolled" and leaves the store unchanged; a first enroll
creates the store `enrollSuccessStore enr st`, and a second enroll on that
store returns "Already enrolled" and leaves it unchanged; the first enroll
appends exactly one enrollment, and when the course has a lesson it
appends an unlocked progress record for its lowest-order lesson. -/
theorem enroll_correct (uid : String) (enr : Enrollment) (st : Store)
    (huid : uid = enr.user_id) :
    (∀ e, st.enrollments.find?
        (fun x => x.user_id == enr.user_id && x.course_id == enr.course_id) = some e →
      enroll uid enr st = .ok (st, .message "Already enrolled")) ∧
    (st.enrollments.find?
        (fun x => x.user_id == enr.user_id && x.course_id == enr.course_id) = none →
      (enroll uid enr st = .ok (enrollSuccessStore enr st,
          .enrollment_id (toString st.enrollments.length)) ∧
       enroll uid enr (enrollSuccessStore enr st) =
         .ok (enrollSuccessStore enr st, .message "Already enrolled") ∧
       (enrollSuccessStore enr st).enrollments = st.enrollments ++ [enr] ∧
       (∀ fl, minByOrder (st.lessons.filter
            (fun l => l.course_id == enr.course_id)) = some fl →
          ((enrollSuccessStore enr st).lessonprogress = st.lessonprogress ++
             [{ user_id := enr.user_id, course_id := some enr.course_id,
                lesson_id := fl.id, is_unlocked := some true,
                is_completed := some false }] ∧
           fl ∈ st.lessons ∧ fl.course_id = enr.course_id ∧
           ∀ l ∈ st.lessons, l.course_id = enr.course_id →
             fl.order ≤ l.order)))) := by
  have henr : (enrollSuccessStore enr st).enrollments = st.enrollments ++ [enr] := by
    unfold enrollSuccessStore
    dsimp only
    cases minByOrder (st.lessons.filter (fun l => l.course_id == enr.course_id)) <;> rfl
  constructor
  · intro e he
    simp [enroll, huid, he]
  · intro hnone
    refine ⟨by simp [enroll, huid, hnone], ?_, henr, ?_⟩
    · have hfind : (enrollSuccessStore enr st).enrollments.find?
          (fun x => x.user_id == enr.user_id && x.course_id == enr.course_id) =
          some enr := by
        rw [henr, List.find?_append, hnone]
        simp
      simp [enroll, huid, hfind]
    · intro fl hfl
      have hlessons : (enrollSuccessStore enr st).lessons = st.lessons := by
        unfold enrollSuccessStore
        dsimp only
        cases minByOrder (st.lessons.filter (fun l => l.course_id == enr.course_id)) <;> rfl
      have hmem := minByOrder_mem _ _ hfl
      have hmin := minByOrder_min _ _ hfl
      rw [List.mem_filter] at hmem
      obtain ⟨hmem1, hmem2⟩ := hmem
      rw [beq_iff_eq] at hmem2
      refine ⟨?_, hmem1, hmem2, fun l hl hcid => ?_⟩
      · unfold enrollSuccessStore
        dsimp only
        simp only [hfl]
      · exact hmin l (List.mem_filter.mpr ⟨hl, by simp [hcid]⟩)

/-- Witness lesson: first lesson of course `c1`. -/
def lessonA : Lesson := { id := "lA", course_id := "c1", title := "A", order := 0 }

/-- Witness lesson: second lesson of course `c1`. -/
def lessonB : Lesson := { id := "lB", course_id := "c1", title := "B", order := 1 }

/-- Witness enrollment request for course `c1`. -/
def enrE : Enrollment := { user_id := "u1", course_id := "c1" }

/-- Witness store for enrollment: two lessons, nothing else. -/
def storeE : Store :=
  { lessons := [lessonA, lessonB], quizzes := [], enrollments := [],
    lessonprogress := [] }

/-- C5 witness: on `storeE`, the first enroll creates the enrollment and
unlocks lesson `lA` (order 0); the second enroll returns "Already
enrolled" and leaves the store unchanged. -/
theorem enroll_correct_witness :
    (storeE.enrollments.find?
      (fun x => x.user_id == enrE.user_id && x.course_id == enrE.course_id) = none) ∧
    enroll "u1" enrE storeE = .ok (enrollSuccessStore enrE storeE,
      .enrollment_id (toString storeE.enrollments.length)) ∧
    enroll "u1" enrE (enrollSuccessStore enrE storeE) =
      .ok (enrollSuccessStore enrE storeE, .message "Already enrolled") ∧
    unlockedIn (enrollSuccessStore enrE storeE).lessonprogress "u1" "lA" = true := by
  have h := (enroll_correct "u1" enrE storeE rfl).2 (by decide)
  exact ⟨by decide, h.1, h.2.1, by decide⟩

/-- `unlockedIn` through the `find?`/`bind` normal form. -/
theorem unlockedIn_eq_bind (docs : List ProgressDoc) (u l : String) :
    unlockedIn docs u l =
      ((docs.find? (progKey u l)).bind (fun d => d.is_unlocked)).getD false := by
  unfold unlockedIn findProg
  cases docs.find? (progKey u l) <;> simp

/-- The completion upsert never changes any record's unlock state. -/
theorem unlockedIn_upsert_completion (uid lid : String) (s t : Int)
    (docs : List ProgressDoc) (u2 l2 : String) :
    unlockedIn (upsertWith (progKey uid lid) (completionUpdate s t)
      (completionNew uid lid s t) docs) u2 l2 = unlockedIn docs u2 l2 := by
  rw [unlockedIn_eq_bind, unlockedIn_eq_bind,
    bind_find_upsert_frame (fun d => d.is_unlocked) (progKey uid lid)
      (completionUpdate s t) (completionNew uid lid s t)
      (fun d _ => ⟨rfl, rfl, rfl⟩) rfl docs u2 l2]

/-- The unlock upsert for lesson `nid` does not change the unlock state of
any other lesson of the same user. -/
theorem unlockedIn_upsert_other (uid cid nid l2 : String)
    (docs : List ProgressDoc) (hne : l2 ≠ nid) :
    unlockedIn (upsertWith (progKey uid nid) (unlockUpdate uid cid nid)
      (unlockNew uid cid nid) docs) uid l2 = unlockedIn docs uid l2 := by
  have h1 : ∀ d : ProgressDoc, progKey uid nid d = true →
      progKey uid l2 d = false := by
    intro d hm
    obtain ⟨hu, hlid⟩ := progKey_eq uid nid d hm
    simp only [progKey, hlid, Bool.and_eq_false_iff]
    right
    simp [Ne.symm hne]
  have h2 : ∀ d : ProgressDoc, progKey uid nid d = true →
      progKey uid l2 (unlockUpdate uid cid nid d) = false := by
    intro d _
    simp only [progKey, unlockUpdate, Bool.and_eq_false_iff]
    right
    simp [Ne.symm hne]
  have h3 : progKey uid l2 (unlockNew uid cid nid) = false := by
    simp only [progKey, unlockNew, Bool.and_eq_false_iff]
    right
    simp [Ne.symm hne]
  unfold unlockedIn findProg
  rw [find_upsert_other (progKey uid nid) (unlockUpdate uid cid nid)
    (unlockNew uid cid nid) (progKey uid l2) h1 h2 h3 docs]

/-- `afterQuiz` on a passing submission whose lesson and next lesson both
exist: completion upsert followed by the unlock upsert. -/
theorem afterQuiz_eq_pass_next (uid lid : String) (quiz : Quiz)
    (ans : List Int) (st : Store) (lesson nxt : Lesson)
    (hpass : (gradeQuiz quiz ans).passed = true)
    (hl : st.lessons.find? (fun l => l.id == lid) = some lesson)
    (hnxt : nextLesson st.lessons lesson.course_id lesson.order = some nxt) :
    afterQuiz uid lid quiz ans st =
      { st with
        lessonprogress :=
          upsertWith (progKey uid nxt.id)
            (unlockUpdate uid lesson.course_id nxt.id)
            (unlockNew uid lesson.course_id nxt.id)
            (upsertWith (progKey uid lid)
              (completionUpdate (gradeQuiz quiz ans).score
                (gradeQuiz quiz ans).total)
              (completionNew uid lid (gradeQuiz quiz ans).score
                (gradeQuiz quiz ans).total) st.lessonprogress) } := by
  unfold afterQuiz
  dsimp only
  rw [if_pos hpass]
  simp only [hl, hnxt]

/-- `afterQuiz` on a passing submission with no strictly later lesson:
completion upsert only. -/
theorem afterQuiz_eq_pass_nonext (uid lid : String) (quiz : Quiz)
    (ans : List Int) (st : Store) (lesson : Lesson)
    (hpass : (gradeQuiz quiz ans).passed = true)
    (hl : st.lessons.find? (fun l => l.id == lid) = some lesson)
    (hnxt : nextLesson st.lessons lesson.course_id lesson.order = none) :
    afterQuiz uid lid quiz ans st =
      { st with
        lessonprogress :=
          upsertWith (progKey uid lid)
            (completionUpdate (gradeQuiz quiz ans).score
              (gradeQuiz quiz ans).total)
            (completionNew uid lid (gradeQuiz quiz ans).score
              (gradeQuiz quiz ans).total) st.lessonprogress } := by
  unfold afterQuiz
  dsimp only
  rw [if_pos hpass]
  simp only [hl, hnxt]

/-- `afterQuiz` on a passing submission whose lesson id resolves to no
lesson document: completion upsert only. -/
theorem afterQuiz_eq_pass_nolesson (uid lid : String) (quiz : Quiz)
    (ans : List Int) (st : Store)
    (hpass : (gradeQuiz quiz ans).passed = true)
    (hl : st.lessons.find? (fun l => l.id == lid) = none) :
    afterQuiz uid lid quiz ans st =
      { st with
        lessonprogress :=
          upsertWith (progKey uid lid)
            (completionUpdate (gradeQuiz quiz ans).score
              (gradeQuiz quiz ans).total)
            (completionNew uid lid (gradeQuiz quiz ans).score
              (gradeQuiz quiz ans).total) st.lessonprogress } := by
  unfold afterQuiz
  dsimp only
  rw [if_pos hpass]
  simp only [hl]

/-- `afterQuiz` on a failing submission: completion upsert only. -/
theorem afterQuiz_eq_fail (uid lid : String) (quiz : Quiz)
    (ans : List Int) (st : Store)
    (hfail : (gradeQuiz quiz ans).passed = false) :
    afterQuiz uid lid quiz ans st =
      { st with
        lessonprogress :=
          upsertWith (progKey uid lid)
            (completionUpdate (gradeQuiz quiz ans).score
              (gradeQuiz quiz ans).total)
            (completionNew uid lid (gradeQuiz quiz ans).score
              (gradeQuiz quiz ans).total) st.lessonprogress } := by
  unfold afterQuiz
  dsimp only
  rw [if_neg (by simp [hfail])]

/-- C6: on a passing submission (for a lesson that exists), exactly the
lesson with the lowest strictly greater order in the same course — when
one exists — has its progress record upserted to unlocked, and every
other lesson's unlock state for that user is unchanged; when no such
lesson exists, and on every failing submission, no lesson's unlock state
changes. -/
theorem submit_quiz_unlock_frame (st : Store) (uid lid : String)
    (ans : List Int) (quiz : Quiz) (lesson : Lesson) (st' : Store)
    (res : QuizResult)
    (hq : st.quizzes.find? (fun q => q.lesson_id == lid) = some quiz)
    (hl : st.lessons.find? (fun l => l.id == lid) = some lesson)
    (hrun : submit_quiz uid lid ans st = .ok (st', res)) :
    (res.passed = true →
      (∀ nxt, nextLesson st.lessons lesson.course_id lesson.order = some nxt →
        unlockedIn st'.lessonprogress uid nxt.id = true ∧
        (∀ l2, l2 ≠ nxt.id →
          unlockedIn st'.lessonprogress uid l2 =
            unlockedIn st.lessonprogress uid l2) ∧
        nxt ∈ st.lessons ∧ nxt.course_id = lesson.course_id ∧
        lesson.order < nxt.order ∧
        (∀ l ∈ st.lessons, l.course_id = lesson.course_id →
          lesson.order < l.order → nxt.order ≤ l.order)) ∧
      (nextLesson st.lessons lesson.course_id lesson.order = none →
        ∀ l2, unlockedIn st'.lessonprogress uid l2 =
          unlockedIn st.lessonprogress uid l2)) ∧
    (res.passed = false →
      ∀ l2, unlockedIn st'.lessonprogress uid l2 =
        unlockedIn st.lessonprogress uid l2) := by
  simp only [submit_quiz, hq, Except.ok.injEq, Prod.mk.injEq] at hrun
  obtain ⟨hst, hres⟩ := hrun
  subst hres
  subst hst
  refine ⟨fun hpass => ⟨fun nxt hnxt => ?_, fun hnone => ?_⟩, fun hfail => ?_⟩
  · rw [afterQuiz_eq_pass_next uid lid quiz ans st lesson nxt hpass hl hnxt]
    obtain ⟨hmem, hcid, hord, hmin⟩ :=
      nextLesson_spec st.lessons lesson.course_id lesson.order nxt hnxt
    refine ⟨?_, ?_, hmem, hcid, hord, hmin⟩
    · exact unlockedIn_upsert_unlock_self uid lesson.course_id nxt.id _
    · intro l2 hne
      exact (unlockedIn_upsert_other uid lesson.course_id nxt.id l2 _ hne).trans
        (unlockedIn_upsert_completion uid lid _ _ st.lessonprogress uid l2)
  · rw [afterQuiz_eq_pass_nonext uid lid quiz ans st lesson hpass hl hnone]
    intro l2
    exact unlockedIn_upsert_completion uid lid _ _ st.lessonprogress uid l2
  · rw [afterQuiz_eq_fail uid lid quiz ans st hfail]
    intro l2
    exact unlockedIn_upsert_completion uid lid _ _ st.lessonprogress uid l2

/-- Witness quiz on lesson `lA` (one 1-point question, pass at 60%). -/
def quizA : Quiz :=
  { lesson_id := "lA",
    questions := [{ prompt := "p", options := ["a", "b"],
                    correct_index := 0, points := 1 }],
    pass_percentage := 60 }

/-- Witness store for the unlock claims: lessons `lA` (order 0) and `lB`
(order 1) of course `c1`, and the quiz on `lA`. -/
def store6 : Store :=
  { lessons := [lessonA, lessonB], quizzes := [quizA], enrollments := [],
    lessonprogress := [] }

/-- The store after a passing submission on `lA` in `store6`. -/
def store6After : Store :=
  { lessons := [lessonA, lessonB], quizzes := [quizA], enrollments := [],
    lessonprogress := [completionNew "u1" "lA" 1 1, unlockNew "u1" "c1" "lB"] }

/-- C6 witness: a passing submission on `lA` in `store6` unlocks exactly
`lB` and leaves the unlock state of any other lesson (here `lZ`)
unchanged. -/
theorem submit_quiz_unlock_frame_witness :
    submit_quiz "u1" "lA" [0] store6 =
      .ok (store6After, { score := 1, total := 1, percentage := 100,
                          passed := true }) ∧
    unlockedIn store6After.lessonprogress "u1" "lB" = true ∧
    unlockedIn store6After.lessonprogress "u1" "lZ" =
      unlockedIn store6.lessonprogress "u1" "lZ" := by
  have h := submit_quiz_unlock_frame store6 "u1" "lA" [0] quizA lessonA
    store6After { score := 1, total := 1, percentage := 100, passed := true }
    (by decide) (by decide) (by decide)
  have h2 := (h.1 rfl).1 lessonB (by decide)
  exact ⟨by decide, h2.1, h2.2.1 "lZ" (by decide)⟩

/-- The store with all collections empty. -/
def storeEmpty : Store :=
  { lessons := [], quizzes := [], enrollments := [], lessonprogress := [] }

/-- C7 counterexample: getting the quiz of a lesson that has no quiz does
not return a 404 — the handler returns a default empty quiz
(`questions = []`, `pass_percentage = 60`) as a successful response. -/
theorem get_quiz_missing_returns_default :
    get_quiz "l1" storeEmpty =
      .ok { lesson_id := "l1", questions := [], pass_percentage := 60 } ∧
    (Except.ok { lesson_id := "l1", questions := [], pass_percentage := 60 } ≠
      (Except.error { status := 404, detail := "Quiz not found" } :
        Except HTTPError Quiz)) := by
  exact ⟨by decide, by decide⟩

/-- C7 amended: submitting answers to a lesson that has no quiz fails with
404 NotFound; getting the quiz of a lesson that has no quiz succeeds with
a default empty quiz (`questions = []`, `pass_percentage = 60`) instead of
returning 404. -/
theorem missing_quiz_behavior (uid lid : String) (ans : List Int) (st : Store)
    (hq : st.quizzes.find? (fun q => q.lesson_id == lid) = none) :
    submit_quiz uid lid ans st =
      .error { status := 404, detail := "Quiz not found" } ∧
    get_quiz lid st =
      .ok { lesson_id := lid, questions := [], pass_percentage := 60 } := by
  constructor
  · simp [submit_quiz, hq]
  · simp [get_quiz, hq]

/-- C7 witness: the missing-quiz behaviour on the empty store. -/
theorem missing_quiz_behavior_witness :
    (storeEmpty.quizzes.find? (fun q => q.lesson_id == "l1") = none) ∧
    submit_quiz "u1" "l1" [] storeEmpty =
      .error { status := 404, detail := "Quiz not found" } ∧
    get_quiz "l1" storeEmpty =
      .ok { lesson_id := "l1", questions := [], pass_percentage := 60 } := by
  have h := missing_quiz_behavior "u1" "l1" [] storeEmpty (by decide)
  exact ⟨by decide, h.1, h.2⟩

/-- `completedIn` through the `find?`/`bind` normal form. -/
theorem completedIn_eq_bind (docs : List ProgressDoc) (u l : String) :
    completedIn docs u l =
      ((docs.find? (progKey u l)).bind (fun d => d.is_completed)).getD false := by
  unfold completedIn findProg
  cases docs.find? (progKey u l) <;> simp

/-- The unlock upsert never changes a field that it does not set. -/
theorem bind_unlock_frame {β : Type} (g : ProgressDoc → Option β)
    (hg1 : ∀ d uid cid nid, g (unlockUpdate uid cid nid d) = g d)
    (hg2 : ∀ uid cid nid, g (unlockNew uid cid nid) = none)
    (uid cid nid : String) (docs : List ProgressDoc) (u2 l2 : String) :
    ((upsertWith (progKey uid nid) (unlockUpdate uid cid nid)
        (unlockNew uid cid nid) docs).find? (progKey u2 l2)).bind g =
      (docs.find? (progKey u2 l2)).bind g :=
  bind_find_upsert_frame g _ _ _
    (fun d hm => by
      obtain ⟨h1, h2⟩ := progKey_eq uid nid d hm
      exact ⟨h1.symm, h2.symm, hg1 d uid cid nid⟩)
    (hg2 uid cid nid) docs u2 l2

/-- The completion upsert of `submit_quiz`, as a list transformer. -/
def completionDocs (uid lid : String) (quiz : Quiz) (ans : List Int)
    (docs : List ProgressDoc) : List ProgressDoc :=
  upsertWith (progKey uid lid)
    (completionUpdate (gradeQuiz quiz ans).score (gradeQuiz quiz ans).total)
    (completionNew uid lid (gradeQuiz quiz ans).score
      (gradeQuiz quiz ans).total) docs

/-- Case analysis of `afterQuiz`'s progress collection: the completion
upsert alone, or the completion upsert followed by the unlock upsert for
the next lesson. -/
theorem afterQuiz_cases (uid lid : String) (quiz : Quiz) (ans : List Int)
    (st : Store) :
    (afterQuiz uid lid quiz ans st).lessonprogress =
      completionDocs uid lid quiz ans st.lessonprogress ∨
    (∃ lesson nxt,
      st.lessons.find? (fun l => l.id == lid) = some lesson ∧
      nextLesson st.lessons lesson.course_id lesson.order = some nxt ∧
      (gradeQuiz quiz ans).passed = true ∧
      (afterQuiz uid lid quiz ans st).lessonprogress =
        upsertWith (progKey uid nxt.id)
          (unlockUpdate uid lesson.course_id nxt.id)
          (unlockNew uid lesson.course_id nxt.id)
          (completionDocs uid lid quiz ans st.lessonprogress)) := by
  by_cases hpass : (gradeQuiz quiz ans).passed = true
  · cases hl : st.lessons.find? (fun l => l.id == lid) with
    | none =>
      left
      rw [afterQuiz_eq_pass_nolesson uid lid quiz ans st hpass hl]
      rfl
    | some lesson =>
      cases hnxt : nextLesson st.lessons lesson.course_id lesson.order with
      | none =>
        left
        rw [afterQuiz_eq_pass_nonext uid lid quiz ans st lesson hpass hl hnxt]
        rfl
      | some nxt =>
        right
        refine ⟨lesson, nxt, rfl, hnxt, hpass, ?_⟩
        rw [afterQuiz_eq_pass_next uid lid quiz ans st lesson nxt hpass hl hnxt]
        rfl
  · have hfail : (gradeQuiz quiz ans).passed = false := by
      revert hpass
      cases (gradeQuiz quiz ans).passed <;> simp
    left
    rw [afterQuiz_eq_fail uid lid quiz ans st hfail]
    rfl

/-- C9: for every user and every lesson whose quiz exists, `submit_quiz`
succeeds and records `is_completed = true` together with the quiz score
and total for that `(user, lesson)` pair, even when the user is not
enrolled in the lesson's course and the lesson's progress record is
locked or absent; a passing such submission also unlocks the next
lesson. -/
theorem submit_quiz_no_gating (st : Store) (uid lid : String)
    (ans : List Int) (quiz : Quiz) (lesson : Lesson)
    (hq : st.quizzes.find? (fun q => q.lesson_id == lid) = some quiz)
    (hl : st.lessons.find? (fun l => l.id == lid) = some lesson)
    (_hnoenroll : st.enrollments.find?
      (fun e => e.user_id == uid && e.course_id == lesson.course_id) = none)
    (_hlocked : unlockedIn st.lessonprogress uid lid = false) :
    submit_quiz uid lid ans st =
      .ok (afterQuiz uid lid quiz ans st, gradeQuiz quiz ans) ∧
    completedIn (afterQuiz uid lid quiz ans st).lessonprogress uid lid = true ∧
    scoreIn (afterQuiz uid lid quiz ans st).lessonprogress uid lid =
      some (gradeQuiz quiz ans).score ∧
    totalIn (afterQuiz uid lid quiz ans st).lessonprogress uid lid =
      some (gradeQuiz quiz ans).total ∧
    ((gradeQuiz quiz ans).passed = true →
      ∀ nxt, nextLesson st.lessons lesson.course_id lesson.order = some nxt →
        unlockedIn (afterQuiz uid lid quiz ans st).lessonprogress uid nxt.id =
          true) := by
  obtain ⟨d, hfind, hc, hs, ht⟩ := findProg_upsert_completion_self uid lid
    (gradeQuiz quiz ans).score (gradeQuiz quiz ans).total st.lessonprogress
  have hcore : (completionDocs uid lid quiz ans st.lessonprogress).find?
      (progKey uid lid) = some d := hfind
  refine ⟨by simp [submit_quiz, hq], ?_, ?_, ?_, ?_⟩
  · rcases afterQuiz_cases uid lid quiz ans st with hcase |
      ⟨lesson2, nxt, _, _, _, hcase⟩
    · rw [hcase, completedIn_eq_bind, hcore]
      simp [hc]
    · rw [hcase, completedIn_eq_bind,
        bind_unlock_frame (fun d => d.is_completed) (fun _ _ _ _ => rfl)
          (fun _ _ _ => rfl) uid lesson2.course_id nxt.id _ uid lid, hcore]
      simp [hc]
  · rcases afterQuiz_cases uid lid quiz ans st with hcase |
      ⟨lesson2, nxt, _, _, _, hcase⟩
    · rw [show scoreIn (afterQuiz uid lid quiz ans st).lessonprogress uid lid =
        ((afterQuiz uid lid quiz ans st).lessonprogress.find?
          (progKey uid lid)).bind (fun d => d.quiz_score) from rfl, hcase, hcore]
      simp [hs]
    · rw [show scoreIn (afterQuiz uid lid quiz ans st).lessonprogress uid lid =
        ((afterQuiz uid lid quiz ans st).lessonprogress.find?
          (progKey uid lid)).bind (fun d => d.quiz_score) from rfl, hcase,
        bind_unlock_frame (fun d => d.quiz_score) (fun _ _ _ _ => rfl)
          (fun _ _ _ => rfl) uid lesson2.course_id nxt.id _ uid lid, hcore]
      simp [hs]
  · rcases afterQuiz_cases uid lid quiz ans st with hcase |
      ⟨lesson2, nxt, _, _, _, hcase⟩
    · rw [show totalIn (afterQuiz uid lid quiz ans st).lessonprogress uid lid =
        ((afterQuiz uid lid quiz ans st).lessonprogress.find?
          (progKey uid lid)).bind (fun d => d.quiz_total) from rfl, hcase, hcore]
      simp [ht]
    · rw [show totalIn (afterQuiz uid lid quiz ans st).lessonprogress uid lid =
        ((afterQuiz uid lid quiz ans st).lessonprogress.find?
          (progKey uid lid)).bind (fun d => d.quiz_total) from rfl, hcase,
        bind_unlock_frame (fun d => d.quiz_total) (fun _ _ _ _ => rfl)
          (fun _ _ _ => rfl) uid lesson2.course_id nxt.id _ uid lid, hcore]
      simp [ht]
  · intro hpass nxt hnxt
    rw [afterQuiz_eq_pass_next uid lid quiz ans st lesson nxt hpass hl hnxt]
    exact unlockedIn_upsert_unlock_self uid lesson.course_id nxt.id _

/-- C9 witness: on `store6` the user `u1` is not enrolled in course `c1`
and has no progress record, yet the submission on `lA` succeeds, records
completion, and (passing) unlocks `lB`. -/
theorem submit_quiz_no_gating_witness :
    (store6.enrollments.find?
      (fun e => e.user_id == "u1" && e.course_id == lessonA.course_id) = none) ∧
    unlockedIn store6.lessonprogress "u1" "lA" = false ∧
    submit_quiz "u1" "lA" [0] store6 =
      .ok (afterQuiz "u1" "lA" quizA [0] store6, gradeQuiz quizA [0]) ∧
    completedIn (afterQuiz "u1" "lA" quizA [0] store6).lessonprogress
      "u1" "lA" = true ∧
    unlockedIn (afterQuiz "u1" "lA" quizA [0] store6).lessonprogress
      "u1" "lB" = true := by
  have h := submit_quiz_no_gating store6 "u1" "lA" [0] quizA lessonA
    (by decide) (by decide) (by decide) (by decide)
  exact ⟨by decide, by decide, h.1, h.2.1, h.2.2.2.2 (by decide) lessonB (by decide)⟩

/-- C10: when no progress record exists for the `(user, lesson)` pair,
the record created by `submit_quiz` carries no `course_id` field
(`course_id = none`), and consequently no record of that pair appears in
`GET /api/me/progress?course_id=...` or
`GET /api/admin/reports/progress?course_id=...` for any course filter. -/
theorem submit_quiz_progress_missing_course (st : Store) (uid lid : String)
    (ans : List Int) (quiz : Quiz) (st' : Store) (res : QuizResult)
    (hq : st.quizzes.find? (fun q => q.lesson_id == lid) = some quiz)
    (hnone : st.lessonprogress.find? (progKey uid lid) = none)
    (hinj : ∀ a ∈ st.lessons, ∀ b ∈ st.lessons, a.id = b.id → a = b)
    (hrun : submit_quiz uid lid ans st = .ok (st', res)) :
    courseIn st'.lessonprogress uid lid = some none ∧
    (∀ cid, ∀ d ∈ my_progress uid (some cid) st',
      ¬(d.user_id = uid ∧ d.lesson_id = lid)) ∧
    (∀ cid, ∀ d ∈ admin_reports_progress cid st',
      ¬(d.user_id = uid ∧ d.lesson_id = lid)) := by
  simp only [submit_quiz, hq, Except.ok.injEq, Prod.mk.injEq] at hrun
  obtain ⟨hst, hres⟩ := hrun
  subst hst
  clear hres
  have hdocsfalse : ∀ d ∈ st.lessonprogress, progKey uid lid d = false := by
    intro d hd
    have hx := List.find?_eq_none.mp hnone d hd
    revert hx
    cases progKey uid lid d <;> simp
  have happ : completionDocs uid lid quiz ans st.lessonprogress =
      st.lessonprogress ++ [completionNew uid lid (gradeQuiz quiz ans).score
        (gradeQuiz quiz ans).total] :=
    upsertWith_no_match _ _ _ _ hdocsfalse
  have hkeyn : progKey uid lid (completionNew uid lid (gradeQuiz quiz ans).score
      (gradeQuiz quiz ans).total) = true := by
    simp [progKey, completionNew]
  have hfind1 : (completionDocs uid lid quiz ans st.lessonprogress).find?
      (progKey uid lid) = some (completionNew uid lid (gradeQuiz quiz ans).score
        (gradeQuiz quiz ans).total) := by
    rw [happ, List.find?_append, hnone]
    simp [List.find?_cons_of_pos _ hkeyn]
  have hmain : (afterQuiz uid lid quiz ans st).lessonprogress.find?
        (progKey uid lid) = some (completionNew uid lid
          (gradeQuiz quiz ans).score (gradeQuiz quiz ans).total) ∧
      (∀ d ∈ (afterQuiz uid lid quiz ans st).lessonprogress,
        progKey uid lid d = true → d.course_id = none) := by
    rcases afterQuiz_cases uid lid quiz ans st with hcase |
      ⟨lesson, nxt, hl, hnxt, hpass, hcase⟩
    · constructor
      · rw [hcase]
        exact hfind1
      · intro d hd hkey
        rw [hcase, happ] at hd
        rcases List.mem_append.mp hd with hmem | hmem
        · rw [hdocsfalse d hmem] at hkey
          exact absurd hkey (by simp)
        · rcases List.mem_singleton.mp hmem with rfl
          rfl
    · have hlesson_mem := List.mem_of_find?_eq_some hl
      have hlesson_id : lesson.id = lid := by
        have hx := List.find?_some hl
        simpa [beq_iff_eq] using hx
      obtain ⟨hnmem, hncid, hnord, -⟩ :=
        nextLesson_spec st.lessons lesson.course_id lesson.order nxt hnxt
      have hne : nxt.id ≠ lid := by
        intro he
        have hx : nxt = lesson :=
          hinj nxt hnmem lesson hlesson_mem (he.trans hlesson_id.symm)
        rw [hx] at hnord
        exact lt_irrefl _ hnord
      have h1 : ∀ d : ProgressDoc, progKey uid nxt.id d = true →
          progKey uid lid d = false := by
        intro d hm
        obtain ⟨hu, hli⟩ := progKey_eq uid nxt.id d hm
        simp only [progKey, hli, Bool.and_eq_false_iff]
        right
        simp [hne]
      have h2 : ∀ d : ProgressDoc, progKey uid nxt.id d = true →
          progKey uid lid (unlockUpdate uid lesson.course_id nxt.id d) = false := by
        intro d _
        simp only [progKey, unlockUpdate, Bool.and_eq_false_iff]
        right
        simp [hne]
      have h3 : progKey uid lid (unlockNew uid lesson.course_id nxt.id) = false := by
        simp only [progKey, unlockNew, Bool.and_eq_false_iff]
        right
        simp [hne]
      constructor
      · rw [hcase, find_upsert_other _ _ _ _ h1 h2 h3]
        exact hfind1
      · intro d hd hkey
        rw [hcase] at hd
        rcases mem_upsertWith _ _ _ _ d hd with hmem | ⟨d0, hd0, hmd0, rfl⟩ | rfl
        · rw [happ] at hmem
          rcases List.mem_append.mp hmem with hmem2 | hmem2
          · rw [hdocsfalse d hmem2] at hkey
            exact absurd hkey (by simp)
          · rcases List.mem_singleton.mp hmem2 with rfl
            rfl
        · rw [h2 d0 hmd0] at hkey
          exact absurd hkey (by simp)
        · rw [h3] at hkey
          exact absurd hkey (by simp)
  obtain ⟨hfind2, hall⟩ := hmain
  refine ⟨?_, ?_, ?_⟩
  · unfold courseIn findProg
    rw [hfind2]
    rfl
  · intro cid d hd hcontra
    unfold my_progress at hd
    obtain ⟨hmem, hcond⟩ := List.mem_filter.mp hd
    have hkey : progKey uid lid d = true := by
      simp [progKey, hcontra.1, hcontra.2]
    have hcourse := hall d hmem hkey
    rw [hcourse] at hcond
    simp at hcond
  · intro cid d hd hcontra
    unfold admin_reports_progress at hd
    obtain ⟨hmem, hcond⟩ := List.mem_filter.mp hd
    have hkey : progKey uid lid d = true := by
      simp [progKey, hcontra.1, hcontra.2]
    have hcourse := hall d hmem hkey
    rw [hcourse] at hcond
    simp at hcond

/-- C10 witness: on `store6` (no prior progress), after a passing
submission on `lA` the `(u1, lA)` record has no `course_id`, and the
course-filtered listings for `c1` contain only the unlock record for
`lB`, not the completion record for `lA`. -/
theorem submit_quiz_progress_missing_course_witness :
    (store6.lessonprogress.find? (progKey "u1" "lA") = none) ∧
    submit_quiz "u1" "lA" [0] store6 =
      .ok (store6After, { score := 1, total := 1, percentage := 100,
                          passed := true }) ∧
    courseIn store6After.lessonprogress "u1" "lA" = some none ∧
    my_progress "u1" (some "c1") store6After = [unlockNew "u1" "c1" "lB"] ∧
    admin_reports_progress "c1" store6After = [unlockNew "u1" "c1" "lB"] := by
  have h := submit_quiz_progress_missing_course store6 "u1" "lA" [0] quizA
    store6After { score := 1, total := 1, percentage := 100, passed := true }
    (by decide) (by decide) (by decide) (by decide)
  exact ⟨by decide, by decide, h.1, by decide, by decide⟩
